import Mathlib

/-!
Verification of the nextrows-py client library.

Shallow embedding of the Python sources:
  * `src/nextrows/api/extract.py` — `_convert_schema`, `build_extract_payload`, `extract`
  * `src/nextrows/client.py` — `Nextrows.__init__` / `AsyncNextrows.__init__`,
    the two `extract` methods, and the `base_url.rstrip("/")` normalization.

Python runtime values are modelled by the inductive type `PyVal`.  A Python
object carrying attributes is `PyVal.obj attrs`, where each attribute is a
triple of its name, whether it is callable, and — for a zero-argument pure
callable, as the spec assumes export capabilities to be — the value the call
returns (for a non-callable attribute, simply its value).  Python `dict`s are
modelled as association lists of string keys, as produced by insertion order;
genuine dicts have no duplicate keys, and no theorem below needs that
invariant.  Fallible Python code is modelled with `Except PyError`.
-/

/-- Whether an attribute of a Python object is callable.  `plain` is a
non-callable attribute; `callable` is a zero-argument pure callable whose
stored payload is the value it returns when invoked. -/
inductive AttrKind : Type where
  | plain : AttrKind
  | callable : AttrKind
  deriving DecidableEq, Repr

/-- A Python runtime value: `None`, booleans, integers, strings, lists,
dicts (association lists keyed by strings), and attribute-bearing objects. -/
inductive PyVal : Type where
  | none : PyVal
  | bool : Bool → PyVal
  | int : Int → PyVal
  | str : String → PyVal
  | list : List PyVal → PyVal
  | dict : List (String × PyVal) → PyVal
  | obj : List (String × AttrKind × PyVal) → PyVal

/-- A Python dict with string keys, as used for request payloads. -/
abbrev Dict := List (String × PyVal)

/-- Errors raised by the modelled code: `ValueError` (the
InvalidSchemaSource error of the spec) and `ImportError` (the
MissingOptionalDependency error of the spec). -/
inductive PyError : Type where
  | valueError : String → PyError
  | importError : String → PyError

/-- `isinstance(v, dict)`. -/
def PyVal.isDict : PyVal → Bool
  | .dict _ => true
  | _ => false

/-- `v is None`. -/
def PyVal.isNone : PyVal → Bool
  | .none => true
  | _ => false

/-- `getattr(v, name, None)` followed by the `callable(...)` test: returns
the value a call to the attribute would produce when `v` has a callable
attribute of that name, and `Option.none` otherwise (built-in values such as
dicts, strings or `None` expose none of the probed attributes). -/
def PyVal.callableAttr : PyVal → String → Option PyVal
  | .obj attrs, name =>
    match attrs.find? (fun a => a.1 == name) with
    | some (_, .callable, r) => some r
    | _ => Option.none
  | _, _ => Option.none

/-- Membership test `k in d` for a Python dict. -/
def dictContains (d : Dict) (k : String) : Bool :=
  d.any (fun p => p.1 == k)

/-- Lookup `d[k]` for a Python dict, as an `Option`. -/
def dictGet (d : Dict) (k : String) : Option PyVal :=
  (d.find? (fun p => p.1 == k)).map (fun p => p.2)

/-- The dict-merge `{**d, k: v}`: keys keep their insertion order, the entry
for `k` gets value `v` (appended at the end when `k` is absent). -/
def dictSet (d : Dict) (k : String) (v : PyVal) : Dict :=
  if dictContains d k then
    d.map (fun p => if p.1 == k then (k, v) else p)
  else
    d ++ [(k, v)]

/-- The message of the `ValueError` raised by `_convert_schema`. -/
def schemaErrorMsg : String :=
  "Schema must be a JSON schema dict or a pydantic model with schema methods."

/-- `_convert_schema` from `src/nextrows/api/extract.py`: a dict is returned
unchanged; otherwise a callable `model_json_schema` attribute is invoked,
then a callable `schema` attribute; otherwise a `ValueError` is raised. -/
def convertSchema (schema : PyVal) : Except PyError PyVal :=
  if schema.isDict then
    .ok schema
  else
    match schema.callableAttr "model_json_schema" with
    | some r => .ok r
    | Option.none =>
      match schema.callableAttr "schema" with
      | some r => .ok r
      | Option.none => .error (.valueError schemaErrorMsg)

/-- `build_extract_payload` from `src/nextrows/api/extract.py`: when the
request has a non-`None` value under `"schema"`, return the request with that
value replaced by `_convert_schema`'s result (a fresh top-level dict, other
entries unchanged); otherwise return `dict(request)`, a shallow copy. -/
def build_extract_payload (request : Dict) : Except PyError Dict :=
  match dictGet request "schema" with
  | some v =>
    if v.isNone then .ok request
    else (convertSchema v).map (fun j => dictSet request "schema" j)
  | Option.none => .ok request

/-- An HTTP POST about to be sent: the full URL and the JSON body.  Producing
this value models reaching the network call; an `Except.error` result models
an exception raised before any network activity. -/
structure HttpPost where
  url : String
  body : Dict

namespace api

/-- `extract` from `src/nextrows/api/extract.py`: build the payload, then
POST it to `f"{base_url}/v1/extract"`.  An error from payload construction
propagates before the POST is formed. -/
def extract (base_url : String) (request : Dict) : Except PyError HttpPost :=
  (build_extract_payload request).map (fun payload => ⟨base_url ++ "/v1/extract", payload⟩)

end api

/-- Python `s.rstrip("/")` on the character list of a string: remove every
trailing `'/'`. -/
def rstripSlashData (l : List Char) : List Char :=
  ((l.reverse.dropWhile (fun c => c == '/')).reverse)

/-- Python `base_url.rstrip("/")`. -/
def rstripSlash (s : String) : String :=
  ⟨rstripSlashData s.data⟩

/-- The headers installed on the session by both client constructors. -/
def defaultHeaders (api_key : String) : List (String × String) :=
  [("Authorization", "Bearer " ++ api_key), ("Content-Type", "application/json")]

/-- The blocking client (`Nextrows` in `src/nextrows/client.py`): the state
it stores after construction. -/
structure Nextrows where
  api_key : String
  base_url : String
  headers : List (String × String)

/-- `Nextrows.__init__`: store the key, the base URL with trailing slashes
stripped, and the session headers. -/
def Nextrows.init (api_key : String) (base_url : String) : Nextrows :=
  ⟨api_key, rstripSlash base_url, defaultHeaders api_key⟩

/-- `Nextrows.extract`: delegate to `api.extract` with the stored base URL. -/
def Nextrows.extract (c : Nextrows) (request : Dict) : Except PyError HttpPost :=
  api.extract c.base_url request

/-- The suspend-on-I/O client (`AsyncNextrows` in `src/nextrows/client.py`):
the state it stores after construction. -/
structure AsyncNextrows where
  api_key : String
  base_url : String
  headers : List (String × String)

/-- The message of the `ImportError` raised by `AsyncNextrows.__init__`. -/
def httpxErrorMsg : String :=
  "AsyncNextrows requires httpx. Install with `pip install nextrows-py[async]`."

/-- `AsyncNextrows.__init__`: `import httpx` is attempted first; when the
dependency is unavailable an `ImportError` is raised and no client value
exists.  Otherwise the same state as the blocking client is stored. -/
def AsyncNextrows.init (httpx_available : Bool) (api_key : String) (base_url : String) :
    Except PyError AsyncNextrows :=
  if httpx_available then
    .ok ⟨api_key, rstripSlash base_url, defaultHeaders api_key⟩
  else
    .error (.importError httpxErrorMsg)

/-- `AsyncNextrows.extract`: build the payload with the shared
`build_extract_payload`, then POST to `f"{self.base_url}/v1/extract"`. -/
def AsyncNextrows.extract (c : AsyncNextrows) (request : Dict) : Except PyError HttpPost :=
  (build_extract_payload request).map (fun payload => ⟨c.base_url ++ "/v1/extract", payload⟩)

/-- `get_credits` from `src/nextrows/api/credits.py`: a GET with no body;
only the URL it targets is modelled. -/
def api.get_credits (base_url : String) : String :=
  base_url ++ "/v1/credits"

/-- `run_app_json` from `src/nextrows/api/apps.py`: POST the request mapping
unchanged to `f"{base_url}/v1/apps/run/json"`. -/
def api.run_app_json (base_url : String) (request : Dict) : HttpPost :=
  ⟨base_url ++ "/v1/apps/run/json", request⟩

/-- `run_app_table` from `src/nextrows/api/apps.py`: POST the request mapping
unchanged to `f"{base_url}/v1/apps/run/table"`. -/
def api.run_app_table (base_url : String) (request : Dict) : HttpPost :=
  ⟨base_url ++ "/v1/apps/run/table", request⟩

/-- The path suffixes appended to the stored base URL by the four API
operations. -/
def apiPaths : List String :=
  ["/v1/extract", "/v1/credits", "/v1/apps/run/json", "/v1/apps/run/table"]

/-- A store of Python dict objects, indexed by address, used to model object
identity and mutation for the top-level request mapping. -/
structure Heap where
  cells : List Dict

/-- Allocate a fresh dict object; the new address is distinct from every
existing one. -/
def Heap.alloc (h : Heap) (d : Dict) : Heap × Nat :=
  (⟨h.cells ++ [d]⟩, h.cells.length)

/-- `build_extract_payload` observed at the level of object identity: the
argument is the address of the request dict; both `{**request, ...}` and
`dict(request)` are dict constructors, so the result is written to a freshly
allocated cell and no existing cell is written. -/
def buildExtractPayloadAlloc (h : Heap) (a : Nat) : Except PyError (Heap × Nat) :=
  match h.cells[a]? with
  | some r => (build_extract_payload r).map (fun p => h.alloc p)
  | Option.none => .error (.valueError "dangling address")

/-! ### Association-list (Python dict) lemmas -/

theorem dictContains_of_dictGet {d : Dict} {k : String} {v : PyVal}
    (h : dictGet d k = some v) : dictContains d k = true := by
  induction d with
  | nil => simp [dictGet] at h
  | cons p ps ih =>
    by_cases hp : p.1 == k
    · simp [dictContains, hp]
    · simp only [dictGet, List.find?, hp] at h
      simp only [dictContains, List.any_cons, hp, Bool.false_or]
      exact ih h

theorem dictGet_dictSet_self {d : Dict} {k : String} {v : PyVal}
    (h : dictContains d k = true) : dictGet (dictSet d k v) k = some v := by
  rw [dictSet, if_pos h]
  induction d with
  | nil => simp [dictContains] at h
  | cons p ps ih =>
    by_cases hp : p.1 == k
    · simp [dictGet, List.find?, hp]
    · simp only [dictContains, List.any_cons, hp, Bool.false_or] at h
      simpa [dictGet, List.find?, hp] using ih h

theorem dictGet_map_update_ne {d : Dict} {k k' : String} {v : PyVal}
    (h : k' ≠ k) :
    dictGet (d.map (fun p => if p.1 == k then (k, v) else p)) k' = dictGet d k' := by
  induction d with
  | nil => rfl
  | cons p ps ih =>
    by_cases hp : p.1 == k
    · have hpk : p.1 = k := by simpa using hp
      have hk' : (k == k') = false := by simpa using fun e => h e.symm
      have hp' : (p.1 == k') = false := by rw [hpk]; exact hk'
      simpa [dictGet, List.find?, hp, hk', hp'] using ih
    · by_cases hp' : p.1 == k'
      · simp [dictGet, List.find?, hp, hp']
      · simpa [dictGet, List.find?, hp, hp'] using ih

theorem dictGet_append_single_ne {d : Dict} {k k' : String} {v : PyVal}
    (h : k' ≠ k) : dictGet (d ++ [(k, v)]) k' = dictGet d k' := by
  induction d with
  | nil =>
    have hk' : (k == k') = false := by simpa using fun e => h e.symm
    simp [dictGet, List.find?, hk']
  | cons p ps ih =>
    by_cases hp' : p.1 == k'
    · simp [dictGet, List.find?, hp']
    · simp only [List.cons_append]
      simp only [dictGet, List.find?, hp'] at ih ⊢
      exact ih

theorem dictGet_dictSet_ne {d : Dict} {k k' : String} {v : PyVal}
    (h : k' ≠ k) : dictGet (dictSet d k v) k' = dictGet d k' := by
  rw [dictSet]
  by_cases hc : dictContains d k
  · rw [if_pos hc]; exact dictGet_map_update_ne h
  · rw [if_neg hc]; exact dictGet_append_single_ne h

theorem keys_dictSet {d : Dict} {k : String} {v : PyVal}
    (h : dictContains d k = true) :
    (dictSet d k v).map Prod.fst = d.map Prod.fst := by
  rw [dictSet, if_pos h, List.map_map]
  refine List.map_congr_left (fun p _ => ?_)
  by_cases hp : p.1 == k
  · have : p.1 = k := by simpa using hp
    simp [Function.comp, hp, this]
  · simp [Function.comp, hp]

/-! ### Claims about SchemaNormalizer (`_convert_schema`) -/

/-- C3: for every schema source that is already a mapping, `_convert_schema`
returns it unchanged — identity, no copy, no validation. -/
theorem claim_C3 (d : List (String × PyVal)) :
    convertSchema (PyVal.dict d) = .ok (PyVal.dict d) := rfl

/-- Witness for C3 at a concrete mapping. -/
theorem claim_C3_witness :
    convertSchema (PyVal.dict [("type", PyVal.str "object")]) =
      .ok (PyVal.dict [("type", PyVal.str "object")]) :=
  claim_C3 [("type", PyVal.str "object")]

/-- C4: a non-mapping schema source with a callable `model_json_schema`
attribute returning `j` normalizes to `j`; no hypothesis on the legacy
`schema` attribute is needed, so this branch wins even when both are
exposed. -/
theorem claim_C4 (attrs : List (String × AttrKind × PyVal)) (j : PyVal)
    (h : (PyVal.obj attrs).callableAttr "model_json_schema" = some j) :
    convertSchema (PyVal.obj attrs) = .ok j := by
  simp only [convertSchema, PyVal.isDict, Bool.false_eq_true, if_false, h]

/-- Witness for C4: an object exposing both capabilities; the primary one is
used. -/
theorem claim_C4_witness :
    convertSchema (PyVal.obj
      [("model_json_schema", AttrKind.callable, PyVal.dict [("title", PyVal.str "M")]),
       ("schema", AttrKind.callable, PyVal.dict [("title", PyVal.str "legacy")])]) =
      .ok (PyVal.dict [("title", PyVal.str "M")]) :=
  claim_C4 _ _ rfl

/-- C5: a non-mapping schema source exposing only the legacy callable
`schema` attribute (and no callable `model_json_schema`) normalizes to the
legacy capability's result. -/
theorem claim_C5 (attrs : List (String × AttrKind × PyVal)) (j : PyVal)
    (hp : (PyVal.obj attrs).callableAttr "model_json_schema" = Option.none)
    (hl : (PyVal.obj attrs).callableAttr "schema" = some j) :
    convertSchema (PyVal.obj attrs) = .ok j := by
  simp only [convertSchema, PyVal.isDict, Bool.false_eq_true, if_false, hp, hl]

/-- Witness for C5 at a concrete legacy-only object. -/
theorem claim_C5_witness :
    convertSchema (PyVal.obj
      [("schema", AttrKind.callable, PyVal.dict [("title", PyVal.str "legacy")])]) =
      .ok (PyVal.dict [("title", PyVal.str "legacy")]) :=
  claim_C5 _ _ rfl rfl

/-- C2: a schema source that is neither a mapping nor exposes a callable
primary (`model_json_schema`) or legacy (`schema`) zero-argument export
capability makes normalization fail with the InvalidSchemaSource
`ValueError`; for any request carrying such a (non-`None`) source, `extract`
raises that error during payload construction and never forms the POST. -/
theorem claim_C2 (s : PyVal)
    (hd : s.isDict = false)
    (h1 : s.callableAttr "model_json_schema" = Option.none)
    (h2 : s.callableAttr "schema" = Option.none) :
    convertSchema s = .error (.valueError schemaErrorMsg) ∧
    (s.isNone = false → ∀ (b : String) (r : Dict), dictGet r "schema" = some s →
      api.extract b r = .error (.valueError schemaErrorMsg)) := by
  have hc : convertSchema s = .error (.valueError schemaErrorMsg) := by
    simp only [convertSchema, hd, Bool.false_eq_true, if_false, h1, h2]
  refine ⟨hc, fun hn b r hr => ?_⟩
  simp only [api.extract, build_extract_payload, hr, hn, Bool.false_eq_true, if_false, hc,
    Except.map]

/-- Witness for C2: an integer is neither a mapping nor an object with an
export capability, and the request carrying it fails before the POST. -/
theorem claim_C2_witness :
    convertSchema (PyVal.int 5) = .error (.valueError schemaErrorMsg) ∧
    ((PyVal.int 5).isNone = false →
      ∀ (b : String) (r : Dict), dictGet r "schema" = some (PyVal.int 5) →
        api.extract b r = .error (.valueError schemaErrorMsg)) :=
  claim_C2 (PyVal.int 5) rfl rfl rfl

/-! ### Claims about RequestPayloadBuilder (`build_extract_payload`) -/

/-- C6: a request without a `"schema"` key, or with `"schema"` set to `None`,
is returned as a (structurally equal) shallow copy: no key added, none
removed, no value changed. -/
theorem claim_C6 (r : Dict)
    (h : dictGet r "schema" = Option.none ∨ dictGet r "schema" = some PyVal.none) :
    build_extract_payload r = .ok r := by
  cases h with
  | inl h => simp only [build_extract_payload, h]
  | inr h => simp only [build_extract_payload, h, PyVal.isNone, if_true]

/-- Witness for C6 at the request of the source's own test (no schema key). -/
theorem claim_C6_witness :
    build_extract_payload [("type", PyVal.str "url"),
      ("data", PyVal.list [PyVal.str "https://example.com"])] =
    .ok [("type", PyVal.str "url"),
      ("data", PyVal.list [PyVal.str "https://example.com"])] :=
  claim_C6 _ (Or.inl rfl)

/-- C1: when the request's `"schema"` value is a mapping, the payload is
produced, its `"schema"` value equals the request's, every other key maps to
the identical value, and the key list (hence the set of keys) is unchanged. -/
theorem claim_C1 (r : Dict) (d : List (String × PyVal))
    (hs : dictGet r "schema" = some (PyVal.dict d)) :
    ∃ p, build_extract_payload r = .ok p ∧
      dictGet p "schema" = dictGet r "schema" ∧
      (∀ k, k ≠ "schema" → dictGet p k = dictGet r k) ∧
      p.map Prod.fst = r.map Prod.fst := by
  have hc : dictContains r "schema" = true := dictContains_of_dictGet hs
  refine ⟨dictSet r "schema" (PyVal.dict d), ?_, ?_, ?_, ?_⟩
  · simp only [build_extract_payload, hs, PyVal.isNone, Bool.false_eq_true, if_false,
      convertSchema, PyVal.isDict, if_true, Except.map]
  · rw [dictGet_dictSet_self hc, hs]
  · exact fun k hk => dictGet_dictSet_ne hk
  · exact keys_dictSet hc

/-- Witness for C1 at the request of the source's own test (dict-valued
schema). -/
theorem claim_C1_witness :
    ∃ p, build_extract_payload [("type", PyVal.str "text"),
        ("data", PyVal.list [PyVal.str "example"]),
        ("schema", PyVal.dict [("type", PyVal.str "object")])] = .ok p ∧
      dictGet p "schema" =
        dictGet [("type", PyVal.str "text"),
          ("data", PyVal.list [PyVal.str "example"]),
          ("schema", PyVal.dict [("type", PyVal.str "object")])] "schema" ∧
      (∀ k, k ≠ "schema" →
        dictGet p k =
          dictGet [("type", PyVal.str "text"),
            ("data", PyVal.list [PyVal.str "example"]),
            ("schema", PyVal.dict [("type", PyVal.str "object")])] k) ∧
      p.map Prod.fst =
        [("type", PyVal.str "text"),
          ("data", PyVal.list [PyVal.str "example"]),
          ("schema", PyVal.dict [("type", PyVal.str "object")])].map Prod.fst :=
  claim_C1 _ _ rfl

/-! ### Claims about the clients -/

/-- C7: constructing the async client while httpx is unavailable raises the
MissingOptionalDependency `ImportError` eagerly, and no client value (hence
no method of it) is ever reachable. -/
theorem claim_C7 (api_key base_url : String) :
    AsyncNextrows.init false api_key base_url = .error (.importError httpxErrorMsg) ∧
    ∀ c : AsyncNextrows, AsyncNextrows.init false api_key base_url ≠ .ok c := by
  refine ⟨rfl, fun c h => ?_⟩
  simp only [AsyncNextrows.init, Bool.false_eq_true, if_false] at h
  exact Except.noConfusion h

/-- Witness for C7 at concrete constructor arguments. -/
theorem claim_C7_witness :
    AsyncNextrows.init false "key" "https://api.nextrows.com" =
      .error (.importError httpxErrorMsg) ∧
    ∀ c : AsyncNextrows,
      AsyncNextrows.init false "key" "https://api.nextrows.com" ≠ .ok c :=
  claim_C7 "key" "https://api.nextrows.com"

/-- C8: payload building is deterministic (equal requests give equal
payloads), and a blocking client and a suspend-on-I/O client constructed
from the same key and base URL produce the very same POST for equal
requests, both going through the one `build_extract_payload`. -/
theorem claim_C8 (api_key base_url : String) (r1 r2 : Dict) (h : r1 = r2)
    (ca : AsyncNextrows) (hca : AsyncNextrows.init true api_key base_url = .ok ca) :
    build_extract_payload r1 = build_extract_payload r2 ∧
    (Nextrows.init api_key base_url).extract r1 = ca.extract r2 := by
  subst h
  simp only [AsyncNextrows.init, if_true, Except.ok.injEq] at hca
  subst hca
  exact ⟨rfl, rfl⟩

/-- Witness for C8 at a concrete key, base URL and request. -/
theorem claim_C8_witness :
    build_extract_payload [("type", PyVal.str "url"), ("data", PyVal.list [])] =
      build_extract_payload [("type", PyVal.str "url"), ("data", PyVal.list [])] ∧
    (Nextrows.init "key" "https://api.nextrows.com/").extract
        [("type", PyVal.str "url"), ("data", PyVal.list [])] =
      AsyncNextrows.extract
        ⟨"key", rstripSlash "https://api.nextrows.com/", defaultHeaders "key"⟩
        [("type", PyVal.str "url"), ("data", PyVal.list [])] :=
  claim_C8 "key" "https://api.nextrows.com/" _ _ rfl _ rfl

/-- C9: `build_extract_payload` never writes to an existing dict object — in
particular the request at address `a` is unchanged — and the returned
mapping lives at a fresh address distinct from the input's. -/
theorem claim_C9 (H : Heap) (a : Nat) (H2 : Heap) (a2 : Nat)
    (hok : buildExtractPayloadAlloc H a = .ok (H2, a2)) :
    (∀ i, i < H.cells.length → H2.cells[i]? = H.cells[i]?) ∧
    H2.cells[a]? = H.cells[a]? ∧
    a2 ≠ a ∧ a2 = H.cells.length := by
  match hget : H.cells[a]? with
  | Option.none =>
    simp only [buildExtractPayloadAlloc, hget] at hok
    exact Except.noConfusion hok
  | some r =>
    have ha : a < H.cells.length := by
      by_contra hlt
      rw [List.getElem?_eq_none (Nat.le_of_not_lt hlt)] at hget
      exact Option.noConfusion hget
    match hbuild : build_extract_payload r with
    | .error e =>
      simp only [buildExtractPayloadAlloc, hget, hbuild, Except.map] at hok
      exact Except.noConfusion hok
    | .ok p =>
      simp only [buildExtractPayloadAlloc, hget, hbuild, Except.map, Heap.alloc,
        Except.ok.injEq, Prod.mk.injEq] at hok
      obtain ⟨hH2, ha2⟩ := hok
      have hpres : ∀ i, i < H.cells.length → H2.cells[i]? = H.cells[i]? := by
        intro i hi
        rw [← hH2]
        exact List.getElem?_append_left hi
      exact ⟨hpres, (hpres a ha).trans hget, by omega, ha2.symm⟩

/-- Witness for C9: a one-cell heap holding a schema-less request; the
payload is allocated at the fresh address 1 and cell 0 is untouched. -/
theorem claim_C9_witness :
    (∀ i, i < (Heap.mk [[("type", PyVal.str "url"), ("data", PyVal.list [])]]).cells.length →
      (Heap.mk [[("type", PyVal.str "url"), ("data", PyVal.list [])],
        [("type", PyVal.str "url"), ("data", PyVal.list [])]]).cells[i]? =
      (Heap.mk [[("type", PyVal.str "url"), ("data", PyVal.list [])]]).cells[i]?) ∧
    (Heap.mk [[("type", PyVal.str "url"), ("data", PyVal.list [])],
      [("type", PyVal.str "url"), ("data", PyVal.list [])]]).cells[0]? =
      (Heap.mk [[("type", PyVal.str "url"), ("data", PyVal.list [])]]).cells[0]? ∧
    (1 : Nat) ≠ 0 ∧
    (1 : Nat) = (Heap.mk [[("type", PyVal.str "url"), ("data", PyVal.list [])]]).cells.length :=
  claim_C9 (Heap.mk [[("type", PyVal.str "url"), ("data", PyVal.list [])]]) 0
    (Heap.mk [[("type", PyVal.str "url"), ("data", PyVal.list [])],
      [("type", PyVal.str "url"), ("data", PyVal.list [])]]) 1 rfl

/-! ### rstrip lemmas and the base-URL claim -/

theorem head?_dropWhile_false {α : Type} (p : α → Bool) (l : List α) {a : α}
    (h : (l.dropWhile p).head? = some a) : p a = false := by
  induction l with
  | nil => simp [List.dropWhile] at h
  | cons x xs ih =>
    by_cases hx : p x
    · rw [List.dropWhile_cons_of_pos hx] at h
      exact ih h
    · rw [List.dropWhile_cons_of_neg hx] at h
      simp only [List.head?_cons, Option.some.injEq] at h
      subst h
      exact Bool.eq_false_iff.mpr hx

theorem rstripSlashData_getLast? (l : List Char) :
    (rstripSlashData l).getLast? ≠ some '/' := by
  intro h
  rw [rstripSlashData, List.getLast?_reverse] at h
  have := head?_dropWhile_false (fun c => c == '/') l.reverse h
  simp at this

theorem rstripSlashData_decomp (l : List Char) :
    ∃ k, l = rstripSlashData l ++ List.replicate k '/' := by
  refine ⟨(l.reverse.takeWhile (fun c => c == '/')).length, ?_⟩
  have hrep : l.reverse.takeWhile (fun c => c == '/') =
      List.replicate (l.reverse.takeWhile (fun c => c == '/')).length '/' :=
    List.eq_replicate_iff.mpr ⟨rfl, fun b hb => by simpa using List.mem_takeWhile_imp hb⟩
  have h2 : (l.reverse.takeWhile (fun c => c == '/')).reverse =
      List.replicate (l.reverse.takeWhile (fun c => c == '/')).length '/' := by
    conv_lhs => rw [hrep]
    simp [List.reverse_replicate]
  conv_lhs => rw [← l.reverse_reverse,
    ← List.takeWhile_append_dropWhile (fun c => c == '/') l.reverse]
  rw [List.reverse_append, rstripSlashData, h2]

/-- C10: both constructors store `base_url` with every trailing `'/'`
stripped (the stored value plus some run of `'/'` reproduces the input, and
the stored value has no trailing `'/'`), and every request URL is the stored
base followed by a path that begins with exactly one `'/'`. -/
theorem claim_C10 (api_key u : String) (r : Dict) :
    (Nextrows.init api_key u).base_url = rstripSlash u ∧
    (AsyncNextrows.init true api_key u).map AsyncNextrows.base_url = .ok (rstripSlash u) ∧
    (∃ k, u.data = (rstripSlash u).data ++ List.replicate k '/') ∧
    (rstripSlash u).data.getLast? ≠ some '/' ∧
    (∀ p ∈ apiPaths, p.data.head? = some '/' ∧ p.data[1]? ≠ some '/') ∧
    (∀ post, api.extract (Nextrows.init api_key u).base_url r = .ok post →
      post.url = rstripSlash u ++ "/v1/extract") ∧
    (api.run_app_json (Nextrows.init api_key u).base_url r).url =
      rstripSlash u ++ "/v1/apps/run/json" ∧
    (api.run_app_table (Nextrows.init api_key u).base_url r).url =
      rstripSlash u ++ "/v1/apps/run/table" ∧
    api.get_credits (Nextrows.init api_key u).base_url = rstripSlash u ++ "/v1/credits" := by
  refine ⟨rfl, rfl, rstripSlashData_decomp u.data, rstripSlashData_getLast? u.data,
    by decide, ?_, rfl, rfl, rfl⟩
  intro post h
  match hbuild : build_extract_payload r with
  | .error e =>
    simp only [api.extract, hbuild, Except.map] at h
    exact Except.noConfusion h
  | .ok p =>
    simp only [api.extract, hbuild, Except.map, Except.ok.injEq] at h
    rw [← h]
    rfl

/-- Witness for C10 at a base URL carrying two trailing slashes. -/
theorem claim_C10_witness :
    (Nextrows.init "key" "https://api.nextrows.com//").base_url =
      rstripSlash "https://api.nextrows.com//" ∧
    (AsyncNextrows.init true "key" "https://api.nextrows.com//").map AsyncNextrows.base_url =
      .ok (rstripSlash "https://api.nextrows.com//") ∧
    (∃ k, "https://api.nextrows.com//".data =
      (rstripSlash "https://api.nextrows.com//").data ++ List.replicate k '/') ∧
    (rstripSlash "https://api.nextrows.com//").data.getLast? ≠ some '/' ∧
    (∀ p ∈ apiPaths, p.data.head? = some '/' ∧ p.data[1]? ≠ some '/') ∧
    (∀ post, api.extract (Nextrows.init "key" "https://api.nextrows.com//").base_url [] = .ok post →
      post.url = rstripSlash "https://api.nextrows.com//" ++ "/v1/extract") ∧
    (api.run_app_json (Nextrows.init "key" "https://api.nextrows.com//").base_url []).url =
      rstripSlash "https://api.nextrows.com//" ++ "/v1/apps/run/json" ∧
    (api.run_app_table (Nextrows.init "key" "https://api.nextrows.com//").base_url []).url =
      rstripSlash "https://api.nextrows.com//" ++ "/v1/apps/run/table" ∧
    api.get_credits (Nextrows.init "key" "https://api.nextrows.com//").base_url =
      rstripSlash "https://api.nextrows.com//" ++ "/v1/credits" :=
  claim_C10 "key" "https://api.nextrows.com//" []
